import Mathlib

/-!
Verification of the mr-analyzer single-page application.

The repository ships three near-duplicate React variants (two inside
`src/index.tsx`, one in `src/unnamed/part_000`).  All variants share the
same component-state shape and the same file-selection logic; they differ
in the result shape (shape B: `isMarketingData`/`analysis`/`reasoning`
versus shape A: `insights`/`recommendations`), in message language, and in
prompt wording.  Strings are modelled by Lean `String`, JS string suffix
tests by `isSuffixOf` on the character lists, and the component state by an
explicit record.  The asynchronous remote call plus `JSON.parse` of the
`try` block is modelled by its outcome: a parsed value, a thrown `Error`
with a message, or a thrown non-`Error` value.
-/

namespace MrAnalyzer

/-- A user-chosen file as the browser hands it to `handleFileChange`:
only its `name` and declared MIME `type` are consulted. -/
structure File where
  name : String
  mimeType : String
  deriving Repr, DecidableEq

/-- JS `s.endsWith(pat)`, on the underlying character sequences. -/
def strEndsWith (s pat : String) : Bool :=
  pat.data.isSuffixOf s.data

/-- The MIME allow-list of `handleFileChange` (identical in all variants). -/
def allowedTypes : List String :=
  ["application/pdf", "text/csv", "application/vnd.ms-excel",
   "application/vnd.openxmlformats-officedocument.spreadsheetml.sheet"]

/-- The acceptance test `allowedTypes.includes(file.type) ||
file.name.endsWith('.csv') || ...`. -/
def isAllowedFile (f : File) : Bool :=
  allowedTypes.contains f.mimeType || strEndsWith f.name ".csv"
    || strEndsWith f.name ".xls" || strEndsWith f.name ".xlsx"

/-- Rejection message of the cited (Polish) variant. -/
def invalidFileTypeMsg : String :=
  "Nieprawidłowy typ pliku. Proszę przesłać plik PDF, CSV lub Excel."

/-- The four `useState` cells of the component, generic over the result
shape `α` (shape A or shape B depending on the variant). -/
structure AppState (α : Type) where
  selectedFile : Option File
  analysisResult : Option α
  isLoading : Bool
  error : Option String
  deriving Repr, DecidableEq

/-- Handler `handleFileChange`: if the event carries a first file, accept it
(store it, clear result and error) when the MIME type or extension is
allowed, otherwise clear the selection and set the error message; with no
file in the event, do nothing.  Mirrors the source: the `else` branch does
not touch `analysisResult`. -/
def handleFileChange {α : Type} (files : Option File) (s : AppState α) :
    AppState α :=
  match files with
  | some file =>
    if isAllowedFile file then
      { s with selectedFile := some file, analysisResult := none,
               error := none }
    else
      { s with selectedFile := none, error := some invalidFileTypeMsg }
  | none => s

/-- Guard message `"Proszę najpierw wybrać plik."` (cited variant). -/
def noFileMsg : String := "Proszę najpierw wybrać plik."

/-- Guard message for a missing API key (cited variant). -/
def noKeyMsg : String :=
  "Klucz API nie jest skonfigurowany. Nie można przeprowadzić analizy."

/-- Fixed text put in front of a surfaced failure message
(`Analiza nie powiodła się: ${errorMessage}`). -/
def analyzeFailHead : String := "Analiza nie powiodła się: "

/-- Generic message used when the thrown value is not an `Error`. -/
def unknownErrMsg : String := "Wystąpił nieznany błąd podczas analizy."

/-- JS truthiness of `process.env.API_KEY`: configured means present and
non-empty. -/
def keyConfigured (k : Option String) : Bool :=
  match k with
  | none => false
  | some v => !v.isEmpty

/-- Outcome of the `try` block's suspension point: the remote call plus
`JSON.parse` either produce a parsed value, or throw an `Error` carrying a
message, or throw a non-`Error` value. -/
inductive AttemptOutcome (α : Type) where
  | ok (data : α)
  | errMsg (m : String)
  | errOther
  deriving Repr, DecidableEq

/-- Handler `handleAnalyze`: the two guards return early (no remote call, flag
`false`); past the guards the loading flag is raised, error and result are
cleared, the remote call is issued (flag `true`), and the `try`/`catch`/
`finally` stores the result or surfaces the error, always lowering the
loading flag. -/
def handleAnalyze {α : Type} (apiKey : Option String)
    (outcome : AttemptOutcome α) (s : AppState α) : AppState α × Bool :=
  match s.selectedFile with
  | none => ({ s with error := some noFileMsg }, false)
  | some _ =>
    if keyConfigured apiKey = false then
      ({ s with error := some noKeyMsg }, false)
    else
      match outcome with
      | .ok data =>
        ({ s with isLoading := false, error := none,
                  analysisResult := some data }, true)
      | .errMsg m =>
        ({ s with isLoading := false,
                  error := some (analyzeFailHead ++ m),
                  analysisResult := none }, true)
      | .errOther =>
        ({ s with isLoading := false,
                  error := some (analyzeFailHead ++ unknownErrMsg),
                  analysisResult := none }, true)

end MrAnalyzer

namespace MrAnalyzer.ShapeB

/-- The `analysis` sub-object of the shape-B `MarketingAnalysis`. -/
structure AnalysisDetails where
  conclusions : List String
  suggestions : List String
  risks : List String
  criticalErrors : List String
  deriving Repr, DecidableEq

/-- Shape-B result: `{ isMarketingData, analysis?, reasoning? }`. -/
structure MarketingAnalysis where
  isMarketingData : Bool
  analysis : Option AnalysisDetails
  reasoning : Option String
  deriving Repr, DecidableEq

/-- What the shape-B result block renders: the four bullet panels, the
informational banner, or nothing. -/
inductive RenderB where
  | panels (a : AnalysisDetails)
  | info (r : String)
  | nothing
  deriving Repr, DecidableEq

/-- The conditional rendering of a stored shape-B result:
`isMarketingData && analysis ? panels : reasoning ? info : null`,
with JS truthiness of the `reasoning` string (an empty string is falsy). -/
def renderResultB (res : MarketingAnalysis) : RenderB :=
  match res.isMarketingData, res.analysis with
  | true, some a => .panels a
  | _, _ =>
    match res.reasoning with
    | some r => if r.isEmpty then .nothing else .info r
    | none => .nothing

end MrAnalyzer.ShapeB

namespace MrAnalyzer.ShapeA

/-- Shape-A result: `{ insights, recommendations }`. -/
structure MarketingAnalysis where
  insights : List String
  recommendations : List String
  deriving Repr, DecidableEq

/-- What one shape-A results section renders: a bullet list with one item
per array element, in order, or the placeholder paragraph. -/
inductive SectionRender where
  | items (xs : List String)
  | placeholder (txt : String)
  deriving Repr, DecidableEq

/-- Rendering `insights.length > 0 ? <ul>…one li per element…</ul>
: <p>No insights generated.</p>` -/
def renderInsights (res : MarketingAnalysis) : SectionRender :=
  if res.insights.length > 0 then .items res.insights
  else .placeholder "No insights generated."

/-- Rendering `recommendations.length > 0 ? <ul>…one li per element…</ul>
: <p>No recommendations generated.</p>` -/
def renderRecommendations (res : MarketingAnalysis) : SectionRender :=
  if res.recommendations.length > 0 then .items res.recommendations
  else .placeholder "No recommendations generated."

end MrAnalyzer.ShapeA

namespace MrAnalyzer.Unwrap

/-- Whitespace as trimmed by JS `String.prototype.trim` (the characters
that occur in practice: space, newline, tab, carriage return). -/
def isWS (c : Char) : Bool :=
  c = ' ' || c = '\n' || c = '\t' || c = '\r'

/-- Drop leading whitespace of a character sequence. -/
def trimLeftChars (l : List Char) : List Char :=
  l.dropWhile isWS

/-- Drop trailing whitespace of a character sequence. -/
def trimRightChars (l : List Char) : List Char :=
  (l.reverse.dropWhile isWS).reverse

/-- JS `trim()`: strip whitespace from both ends. -/
def trimChars (l : List Char) : List Char :=
  trimLeftChars (trimRightChars l)

/-- The backquote character (code point 96). -/
def bq : Char := Char.ofNat 96

/-- The triple-backtick fence delimiter. -/
def fenceMark : List Char := [bq, bq, bq]

/-- A character allowed in the optional language tag of a fence
(the `\w` class of the fence pattern). -/
def isWordChar (c : Char) : Bool :=
  c.isAlphanum || c = '_'

/-- Drop the optional language-tag line that follows the opening fence:
when everything before the first newline is word characters (e.g. `json`
or nothing), drop that tag together with the newline; otherwise leave the
body unchanged. -/
def stripTagLine (l : List Char) : List Char :=
  let tagLine := l.takeWhile (fun c => c != '\n')
  if tagLine.all isWordChar then
    match l.dropWhile (fun c => c != '\n') with
    | '\n' :: r => r
    | _ => l
  else l

/-- Drop the last `n` characters. -/
def dropRight (n : Nat) (l : List Char) : List Char :=
  l.take (l.length - n)

/-- Modelled from the spec: the response unwrapper of the repository
variants not included under `src/` (the in-src variants are
schema-constrained and only trim).  Per §4.4, it "trims the raw text
response" and "strips an optional triple-backtick-fenced code block via
pattern match before parsing": after trimming, when the text both starts
and ends with the fence delimiter, the delimiters and the optional
language-tag line are removed and the enclosed payload is trimmed;
otherwise the trimmed text is returned unchanged. -/
def unwrapChars (raw : List Char) : List Char :=
  let t := trimChars raw
  if fenceMark.isPrefixOf t && fenceMark.isSuffixOf (t.drop 3) then
    trimChars (stripTagLine (dropRight 3 (t.drop 3)))
  else t

/-- Modelled from the spec: string-level response unwrapper (see
`unwrapChars`). -/
def unwrapResponse (s : String) : String :=
  ⟨unwrapChars s.data⟩

/-- A payload wrapped in a markdown code fence with an optional language
tag, as in the spec's round-trip property. -/
def mkFenced (tag payload : String) : String :=
  "```" ++ tag ++ "\n" ++ payload ++ "\n```"

end MrAnalyzer.Unwrap

namespace MrAnalyzer.Validate

/-- The value produced by `JSON.parse`. -/
inductive JsonValue where
  | jnull
  | jbool (b : Bool)
  | jnum (n : Int)
  | jstr (s : String)
  | jarr (xs : List JsonValue)
  | jobj (fields : List (String × JsonValue))

/-- JS property access on a parsed object: the value of the first field
with the given name, if any. -/
def getField (fields : List (String × JsonValue)) (k : String) :
    Option JsonValue :=
  (fields.find? (fun p => p.1 == k)).map Prod.snd

/-- JS `Array.isArray` on a parsed value. -/
def isArr : JsonValue → Bool
  | .jarr _ => true
  | _ => false

/-- Read a parsed value as an array of strings; `none` when it is not an
array (or its elements are not strings). -/
def asStrList : JsonValue → Option (List String)
  | .jarr xs =>
    xs.mapM (fun x => match x with | .jstr s => some s | _ => none)
  | _ => none

/-- Modelled from the spec: the "truncated preview of the raw text"
attached to a local parse error (§4.4); the spec fixes no length, 100
characters are used here. -/
def truncatePreview (raw : String) : String :=
  ⟨raw.data.take 100⟩

/-- Fixed text of the local shape-mismatch error, completed by the
truncated raw-text preview. -/
def shapeErrHead : String := "Unexpected response shape. Raw response: "

/-- Modelled from the spec: shape-A response validation of the repository
variants not included under `src/` (the in-src variants store the cast
result unchecked).  Per §4.4 it "validates that required array fields are
actually arrays; on shape mismatch or parse failure, raises a local error
with a truncated preview of the raw text". -/
def validateShapeA (raw : String) (v : JsonValue) :
    Except String ShapeA.MarketingAnalysis :=
  match v with
  | .jobj fields =>
    match (getField fields "insights").bind asStrList with
    | none => .error (shapeErrHead ++ truncatePreview raw)
    | some ins =>
      match (getField fields "recommendations").bind asStrList with
      | none => .error (shapeErrHead ++ truncatePreview raw)
      | some recs => .ok ⟨ins, recs⟩
  | _ => .error (shapeErrHead ++ truncatePreview raw)

/-- Read the optional `reasoning` field: absent is fine, a string is
taken, anything else is a shape mismatch. -/
def readReasoning (fields : List (String × JsonValue)) :
    Except Unit (Option String) :=
  match getField fields "reasoning" with
  | none => .ok none
  | some (.jstr r) => .ok (some r)
  | some _ => .error ()

/-- Modelled from the spec: validation of the shape-B `analysis`
sub-object — each of the four declared array fields must be present and
actually an array (of strings). -/
def validateDetails (af : List (String × JsonValue)) :
    Except Unit ShapeB.AnalysisDetails :=
  match (getField af "conclusions").bind asStrList with
  | none => .error ()
  | some cs =>
    match (getField af "suggestions").bind asStrList with
    | none => .error ()
    | some su =>
      match (getField af "risks").bind asStrList with
      | none => .error ()
      | some rs =>
        match (getField af "criticalErrors").bind asStrList with
        | none => .error ()
        | some ce => .ok ⟨cs, su, rs, ce⟩

/-- Modelled from the spec: shape-B response validation of the repository
variants not included under `src/` (see `validateShapeA`): `isMarketingData`
must be a boolean, an `analysis` object, when present, must pass
`validateDetails`, and `reasoning`, when present, must be a string. -/
def validateShapeB (raw : String) (v : JsonValue) :
    Except String ShapeB.MarketingAnalysis :=
  match v with
  | .jobj fields =>
    match getField fields "isMarketingData" with
    | some (.jbool b) =>
      match getField fields "analysis" with
      | none =>
        match readReasoning fields with
        | .ok r => .ok ⟨b, none, r⟩
        | .error _ => .error (shapeErrHead ++ truncatePreview raw)
      | some (.jobj af) =>
        match validateDetails af with
        | .ok d =>
          match readReasoning fields with
          | .ok r => .ok ⟨b, some d, r⟩
          | .error _ => .error (shapeErrHead ++ truncatePreview raw)
        | .error _ => .error (shapeErrHead ++ truncatePreview raw)
      | some _ => .error (shapeErrHead ++ truncatePreview raw)
    | _ => .error (shapeErrHead ++ truncatePreview raw)
  | _ => .error (shapeErrHead ++ truncatePreview raw)

end MrAnalyzer.Validate

namespace MrAnalyzer

open ShapeA ShapeB Unwrap Validate

/-! ## Helper lemmas -/

/-- Two suffix tests on the same string: the shorter tested suffix is a
suffix of the longer one. -/
theorem strEndsWith_both {s p q : String} (hp : strEndsWith s p = true)
    (hq : strEndsWith s q = true) (hle : p.data.length ≤ q.data.length) :
    p.data.isSuffixOf q.data = true := by
  rw [strEndsWith, List.isSuffixOf_iff_suffix] at hp hq
  rw [List.isSuffixOf_iff_suffix]
  exact List.suffix_of_suffix_length_le hp hq hle

/-- A name ending in `.pdf` ends in none of `.csv`, `.xls`, `.xlsx`. -/
theorem endsWith_pdf_excl {nm : String} (h : strEndsWith nm ".pdf" = true) :
    strEndsWith nm ".csv" = false ∧ strEndsWith nm ".xls" = false ∧
    strEndsWith nm ".xlsx" = false := by
  refine ⟨?_, ?_, ?_⟩
  · cases hc : strEndsWith nm ".csv"
    · rfl
    · exact absurd (strEndsWith_both h hc (by decide)) (by decide)
  · cases hc : strEndsWith nm ".xls"
    · rfl
    · exact absurd (strEndsWith_both h hc (by decide)) (by decide)
  · cases hc : strEndsWith nm ".xlsx"
    · rfl
    · exact absurd (strEndsWith_both h hc (by decide)) (by decide)

/-- The acceptance test, spelled out as the seven-fold disjunction. -/
theorem isAllowedFile_iff (f : File) :
    isAllowedFile f = true ↔
      (f.mimeType = "application/pdf" ∨ f.mimeType = "text/csv" ∨
       f.mimeType = "application/vnd.ms-excel" ∨
       f.mimeType
         = "application/vnd.openxmlformats-officedocument.spreadsheetml.sheet" ∨
       strEndsWith f.name ".csv" = true ∨ strEndsWith f.name ".xls" = true ∨
       strEndsWith f.name ".xlsx" = true) := by
  simp only [isAllowedFile, Bool.or_eq_true, List.elem_iff, allowedTypes,
    List.mem_cons, List.mem_singleton, List.not_mem_nil, or_false]
  tauto

/-! ## Helper lemmas for the response unwrapper -/

theorem isWS_bq : isWS bq = false := by decide

/-- Trailing trim is the identity on text ending in the fence mark. -/
theorem trimRight_append_fence (l : List Char) :
    trimRightChars (l ++ fenceMark) = l ++ fenceMark := by
  simp [trimRightChars, fenceMark, List.reverse_append, List.dropWhile_cons,
    isWS_bq]

/-- Leading trim is the identity on text starting with the fence mark. -/
theorem trimLeft_fence (l : List Char) :
    trimLeftChars (fenceMark ++ l) = fenceMark ++ l := by
  simp [trimLeftChars, fenceMark, List.dropWhile_cons, isWS_bq]

/-- A trailing newline disappears under trailing trim. -/
theorem trimRight_append_newline (p : List Char) :
    trimRightChars (p ++ ['\n']) = trimRightChars p := by
  simp [trimRightChars, List.reverse_append, List.dropWhile_cons,
    show isWS '\n' = true from by decide]

/-- A trimmed payload with a trailing newline trims back to itself. -/
theorem trim_payload_newline (p : List Char) (hp : trimChars p = p) :
    trimChars (p ++ ['\n']) = p := by
  simp only [trimChars] at hp ⊢
  rw [trimRight_append_newline]
  exact hp

theorem fence_isPrefixOf_append (l : List Char) :
    fenceMark.isPrefixOf (fenceMark ++ l) = true := by
  simp [fenceMark, List.isPrefixOf_cons₂]

theorem fence_isSuffixOf_append (l : List Char) :
    fenceMark.isSuffixOf (l ++ fenceMark) = true := by
  simp [List.isSuffixOf, List.reverse_append, fenceMark,
    List.isPrefixOf_cons₂]

theorem dropRight_fence (l : List Char) :
    dropRight 3 (l ++ fenceMark) = l := by
  have hlen : (l ++ fenceMark).length - 3 = l.length := by simp [fenceMark]
  rw [dropRight, hlen, List.take_left]

/-- A word character is not a newline. -/
theorem word_ne_newline {c : Char} (h : isWordChar c = true) :
    (c != '\n') = true := by
  cases hc : c == '\n'
  · simp [bne, hc]
  · have hc' : c = '\n' := eq_of_beq hc
    subst hc'
    exact absurd h (by decide)

/-- Splitting a word-character tag line at its newline. -/
theorem takeWhile_tag (tag : List Char) (h : tag.all isWordChar = true)
    (rest : List Char) :
    (tag ++ '\n' :: rest).takeWhile (fun c => c != '\n') = tag ∧
    (tag ++ '\n' :: rest).dropWhile (fun c => c != '\n') = '\n' :: rest := by
  induction tag with
  | nil =>
    simp [List.takeWhile_cons, List.dropWhile_cons]
  | cons c t ih =>
    rw [List.all_cons, Bool.and_eq_true] at h
    obtain ⟨ih1, ih2⟩ := ih h.2
    simp [List.takeWhile_cons, List.dropWhile_cons, word_ne_newline h.1,
      ih1, ih2]

/-- Lemma: `stripTagLine` removes exactly the word-character tag line. -/
theorem stripTagLine_tag (tag rest : List Char)
    (h : tag.all isWordChar = true) :
    stripTagLine (tag ++ '\n' :: rest) = rest := by
  obtain ⟨h1, h2⟩ := takeWhile_tag tag h rest
  simp [stripTagLine, h1, h2, h]

/-- Unwrapping a fenced payload (word tag, clean payload) yields the
payload. -/
theorem unwrapChars_fenced (tag p : List Char) (hp : trimChars p = p)
    (htag : tag.all isWordChar = true) :
    unwrapChars (fenceMark ++ tag ++ '\n' :: (p ++ '\n' :: fenceMark))
      = p := by
  have hassoc : fenceMark ++ tag ++ '\n' :: (p ++ '\n' :: fenceMark)
      = (fenceMark ++ tag ++ '\n' :: (p ++ ['\n'])) ++ fenceMark := by
    simp
  have htrim :
      trimChars (fenceMark ++ tag ++ '\n' :: (p ++ '\n' :: fenceMark))
        = fenceMark ++ tag ++ '\n' :: (p ++ '\n' :: fenceMark) := by
    simp only [trimChars]
    rw [hassoc, trimRight_append_fence, ← hassoc]
    exact trimLeft_fence _
  have hdrop :
      (fenceMark ++ tag ++ '\n' :: (p ++ '\n' :: fenceMark)).drop 3
        = tag ++ '\n' :: (p ++ '\n' :: fenceMark) := by
    simp [fenceMark]
  have hsufrw : tag ++ '\n' :: (p ++ '\n' :: fenceMark)
      = (tag ++ '\n' :: (p ++ ['\n'])) ++ fenceMark := by
    simp
  have hsuf :
      fenceMark.isSuffixOf (tag ++ '\n' :: (p ++ '\n' :: fenceMark))
        = true := by
    rw [hsufrw]
    exact fence_isSuffixOf_append _
  have hpre :
      fenceMark.isPrefixOf
          (fenceMark ++ tag ++ '\n' :: (p ++ '\n' :: fenceMark)) = true :=
    fence_isPrefixOf_append _
  have hdr : dropRight 3 (tag ++ '\n' :: (p ++ '\n' :: fenceMark))
      = tag ++ '\n' :: (p ++ ['\n']) := by
    rw [hsufrw]
    exact dropRight_fence _
  simp only [unwrapChars, htrim, hdrop, hpre, hsuf, Bool.and_self, if_true]
  rw [hdr, stripTagLine_tag tag (p ++ ['\n']) htag,
    trim_payload_newline p hp]

/-- Unwrapping an unfenced, already trimmed payload is the identity. -/
theorem unwrapChars_plain (p : List Char) (hp : trimChars p = p)
    (hnf : fenceMark.isPrefixOf p = false) :
    unwrapChars p = p := by
  simp [unwrapChars, hp, hnf]

/-! ## Helper lemmas for the response validators -/

theorem asStrList_nonarr {v : JsonValue} (h : isArr v = false) :
    asStrList v = none := by
  cases v <;> simp_all [asStrList, isArr]

/-- When any one of the four declared array fields of the `analysis`
sub-object is present but not an array, its validation fails. -/
theorem validateDetails_err (af : List (String × JsonValue)) (fn : String)
    (v : JsonValue) (hv : isArr v = false)
    (hfn : fn = "conclusions" ∨ fn = "suggestions" ∨ fn = "risks" ∨
      fn = "criticalErrors")
    (hf : getField af fn = some v) :
    validateDetails af = .error () := by
  have hnone : (getField af fn).bind asStrList = none := by
    rw [hf]
    simp [asStrList_nonarr hv]
  rcases hfn with h | h | h | h <;> subst h
  · simp [validateDetails, hnone]
  · cases h1 : (getField af "conclusions").bind asStrList <;>
      simp [validateDetails, h1, hnone]
  · cases h1 : (getField af "conclusions").bind asStrList
    · simp [validateDetails, h1]
    · cases h2 : (getField af "suggestions").bind asStrList <;>
        simp [validateDetails, h1, h2, hnone]
  · cases h1 : (getField af "conclusions").bind asStrList
    · simp [validateDetails, h1]
    · cases h2 : (getField af "suggestions").bind asStrList
      · simp [validateDetails, h1, h2]
      · cases h3 : (getField af "risks").bind asStrList <;>
          simp [validateDetails, h1, h2, h3, hnone]

/-! ## Claim theorems -/

/-- C9: a file-input change event with no file leaves the whole component
state unchanged: selected file, result, error and loading flag keep their
prior values. -/
theorem c9_empty_event_state_unchanged {α : Type} (s : AppState α) :
    handleFileChange none s = s := rfl

/-- C5: `handleFileChange` accepts a file iff its MIME type is one of the
four allow-listed types or its name ends in `.csv`, `.xls` or `.xlsx`;
in particular a file named `*.pdf` whose MIME type is outside the
allow-list is rejected (no PDF-by-extension fallback). -/
theorem c5_accept_iff {α : Type} (f : File) (s : AppState α) :
    ((handleFileChange (some f) s).selectedFile = some f ↔
      (f.mimeType = "application/pdf" ∨ f.mimeType = "text/csv" ∨
       f.mimeType = "application/vnd.ms-excel" ∨
       f.mimeType
         = "application/vnd.openxmlformats-officedocument.spreadsheetml.sheet" ∨
       strEndsWith f.name ".csv" = true ∨ strEndsWith f.name ".xls" = true ∨
       strEndsWith f.name ".xlsx" = true)) ∧
    (strEndsWith f.name ".pdf" = true → f.mimeType ∉ allowedTypes →
      (handleFileChange (some f) s).selectedFile = none ∧
      (handleFileChange (some f) s).error = some invalidFileTypeMsg) := by
  have haccept : (handleFileChange (some f) s).selectedFile = some f ↔
      isAllowedFile f = true := by
    cases h : isAllowedFile f <;> simp [handleFileChange, h]
  constructor
  · exact haccept.trans (isAllowedFile_iff f)
  · intro hpdf hmime
    obtain ⟨h1, h2, h3⟩ := endsWith_pdf_excl hpdf
    have hcontains : allowedTypes.contains f.mimeType = false := by
      cases hc : allowedTypes.contains f.mimeType
      · rfl
      · exact absurd (List.elem_iff.mp hc) hmime
    have hall : isAllowedFile f = false := by
      simp only [isAllowedFile, h1, h2, h3, Bool.or_false]
      exact hcontains
    simp [handleFileChange, hall]

/-- C5 witness: a file named `report.pdf` with MIME type `text/plain` is
rejected, and the acceptance test of a plain CSV file holds. -/
theorem c5_witness :
    strEndsWith "report.pdf" ".pdf" = true ∧
    "text/plain" ∉ allowedTypes ∧
    (handleFileChange (some ⟨"report.pdf", "text/plain"⟩)
        (⟨none, (none : Option ShapeB.MarketingAnalysis), false,
          none⟩)).selectedFile = none :=
  ⟨by decide, by decide,
    ((c5_accept_iff ⟨"report.pdf", "text/plain"⟩
        ⟨none, none, false, none⟩).2 (by decide) (by decide)).1⟩

/-- C1 counterexample: a rejected selection (wrong MIME type and
extension) keeps the previously stored analysis result — the claim that
it is cleared fails here. -/
theorem c1_counterexample :
    isAllowedFile ⟨"notes.txt", "text/plain"⟩ = false ∧
    (handleFileChange (some ⟨"notes.txt", "text/plain"⟩)
        (⟨none, some (⟨false, none, some "nie marketing"⟩ :
            ShapeB.MarketingAnalysis), false, none⟩)).analysisResult
      = some ⟨false, none, some "nie marketing"⟩ := by
  constructor
  · decide
  · rfl

/-- C1 (amended): for a file outside the allow-list, `handleFileChange`
clears the selection and sets the invalid-file error, but the previously
stored analysis result is retained unchanged. -/
theorem c1_rejection_state {α : Type} (f : File) (s : AppState α)
    (h : isAllowedFile f = false) :
    (handleFileChange (some f) s).selectedFile = none ∧
    (handleFileChange (some f) s).error = some invalidFileTypeMsg ∧
    (handleFileChange (some f) s).analysisResult = s.analysisResult := by
  simp [handleFileChange, h]

/-- C1 witness: the amended statement at a concrete rejected file and a
state holding a prior result. -/
theorem c1_witness :
    (handleFileChange (some ⟨"notes.txt", "text/plain"⟩)
        (⟨none, some (⟨false, none, some "nie marketing"⟩ :
            ShapeB.MarketingAnalysis), false, none⟩)).selectedFile = none ∧
    (handleFileChange (some ⟨"notes.txt", "text/plain"⟩)
        (⟨none, some (⟨false, none, some "nie marketing"⟩ :
            ShapeB.MarketingAnalysis), false, none⟩)).error
      = some invalidFileTypeMsg ∧
    (handleFileChange (some ⟨"notes.txt", "text/plain"⟩)
        (⟨none, some (⟨false, none, some "nie marketing"⟩ :
            ShapeB.MarketingAnalysis), false, none⟩)).analysisResult
      = some ⟨false, none, some "nie marketing"⟩ :=
  c1_rejection_state ⟨"notes.txt", "text/plain"⟩
    (⟨none, some ⟨false, none, some "nie marketing"⟩, false, none⟩ :
      AppState ShapeB.MarketingAnalysis) (by decide)

/-- C4 counterexample: a shape-B result violating the presence invariant
(`isMarketingData` true, `analysis` absent) with a non-empty `reasoning`
renders the informational banner, not nothing. -/
theorem c4_counterexample :
    (ShapeB.MarketingAnalysis.mk true none
        (some "To nie raport")).isMarketingData = true ∧
    (ShapeB.MarketingAnalysis.mk true none (some "To nie raport")).analysis
      = none ∧
    ShapeB.renderResultB ⟨true, none, some "To nie raport"⟩
      = ShapeB.RenderB.info "To nie raport" ∧
    ShapeB.RenderB.info "To nie raport" ≠ ShapeB.RenderB.nothing :=
  ⟨rfl, rfl, rfl, by decide⟩

/-- C4 (amended): a shape-B result violating the presence invariant
renders nothing — unless `isMarketingData` is true, `analysis` is absent
and `reasoning` is present and non-empty, in which case the informational
banner with that reasoning is rendered; no error is produced either way. -/
theorem c4_violations_render (res : ShapeB.MarketingAnalysis)
    (hviol : (res.isMarketingData = true ∧ res.analysis = none) ∨
             (res.isMarketingData = false ∧ res.reasoning = none)) :
    ShapeB.renderResultB res = ShapeB.RenderB.nothing ∨
    ∃ r, res.reasoning = some r ∧ r.isEmpty = false ∧
      ShapeB.renderResultB res = ShapeB.RenderB.info r := by
  obtain ⟨b, ana, rsn⟩ := res
  rcases hviol with ⟨hb, ha⟩ | ⟨hb, hr⟩
  · cases hb; cases ha
    cases rsn with
    | none => exact Or.inl rfl
    | some r =>
      cases he : r.isEmpty
      · exact Or.inr ⟨r, rfl, he, by simp [ShapeB.renderResultB, he]⟩
      · exact Or.inl (by simp [ShapeB.renderResultB, he])
  · cases hb; cases hr
    exact Or.inl (by cases ana <;> rfl)

/-- C4 witness: the amended statement at a violating result with no
reasoning — it renders nothing. -/
theorem c4_witness :
    ShapeB.renderResultB ⟨true, none, none⟩ = ShapeB.RenderB.nothing ∨
    ∃ r, (ShapeB.MarketingAnalysis.mk true none none).reasoning = some r ∧
      r.isEmpty = false ∧
      ShapeB.renderResultB ⟨true, none, none⟩ = ShapeB.RenderB.info r :=
  c4_violations_render ⟨true, none, none⟩ (Or.inl ⟨rfl, rfl⟩)

/-- C6: `handleAnalyze` with no selected file sets the "select a file
first" error and issues no remote call; with a file but an unconfigured
credential it sets the "not configured" error and issues no remote call;
the rest of the state is untouched in both cases. -/
theorem c6_guards {α : Type} (k : Option String) (o : AttemptOutcome α)
    (s : AppState α) :
    (s.selectedFile = none →
      handleAnalyze k o s = ({ s with error := some noFileMsg }, false)) ∧
    (s.selectedFile ≠ none → keyConfigured k = false →
      handleAnalyze k o s = ({ s with error := some noKeyMsg }, false)) := by
  constructor
  · intro h
    simp [handleAnalyze, h]
  · intro h hk
    obtain ⟨f, hf⟩ := Option.ne_none_iff_exists'.mp h
    simp [handleAnalyze, hf, hk]

/-- C6 witness: both guards at concrete states. -/
theorem c6_witness :
    handleAnalyze none (AttemptOutcome.errOther)
        (⟨none, (none : Option ShapeB.MarketingAnalysis), false, none⟩)
      = (⟨none, none, false, some noFileMsg⟩, false) ∧
    handleAnalyze none (AttemptOutcome.errOther)
        (⟨some ⟨"r.csv", "text/csv"⟩,
          (none : Option ShapeB.MarketingAnalysis), false, none⟩)
      = (⟨some ⟨"r.csv", "text/csv"⟩, none, false, some noKeyMsg⟩, false) :=
  ⟨(c6_guards none AttemptOutcome.errOther
      ⟨none, none, false, none⟩).1 rfl,
   (c6_guards none AttemptOutcome.errOther
      ⟨some ⟨"r.csv", "text/csv"⟩, none, false, none⟩).2
     (by decide) rfl⟩

/-- C7: past the guards, a thrown `Error` surfaces its message verbatim
behind the fixed text and clears the stored result; a non-`Error` throw
surfaces the generic message; and the failure is terminal only for that
attempt — re-invoking `handleAnalyze` on the failed state behaves exactly
as on a cleared state, and re-selecting a valid file starts from a fresh
state. -/
theorem c7_failure_terminal_for_attempt {α : Type} (k : Option String)
    (s : AppState α) (f : File) (m : String)
    (hf : s.selectedFile = some f) (hk : keyConfigured k = true) :
    ((handleAnalyze k (AttemptOutcome.errMsg m) s).1.error
        = some (analyzeFailHead ++ m) ∧
     (handleAnalyze k (AttemptOutcome.errMsg m) s).1.analysisResult
        = none) ∧
    ((handleAnalyze k (AttemptOutcome.errOther (α := α)) s).1.error
        = some (analyzeFailHead ++ unknownErrMsg) ∧
     (handleAnalyze k (AttemptOutcome.errOther (α := α)) s).1.analysisResult
        = none) ∧
    (∀ o : AttemptOutcome α,
      handleAnalyze k o ((handleAnalyze k (AttemptOutcome.errMsg m) s).1)
        = handleAnalyze k o
            { s with error := none, analysisResult := none,
                     isLoading := false }) ∧
    (∀ g : File, isAllowedFile g = true →
      handleFileChange (some g)
          ((handleAnalyze k (AttemptOutcome.errMsg m) s).1)
        = ⟨some g, none, false, none⟩) := by
  refine ⟨?_, ?_, ?_, ?_⟩
  · simp [handleAnalyze, hf, hk]
  · simp [handleAnalyze, hf, hk]
  · intro o
    cases o <;> simp [handleAnalyze, hf, hk]
  · intro g hg
    simp [handleAnalyze, handleFileChange, hf, hk, hg]

/-- C7 witness: the caught-`Error` conclusion at a concrete state, key and
message. -/
theorem c7_witness :
    (handleAnalyze (some "key")
        (AttemptOutcome.errMsg (α := ShapeB.MarketingAnalysis) "quota")
        ⟨some ⟨"r.csv", "text/csv"⟩, none, true, none⟩).1.error
      = some (analyzeFailHead ++ "quota") ∧
    (handleAnalyze (some "key")
        (AttemptOutcome.errMsg (α := ShapeB.MarketingAnalysis) "quota")
        ⟨some ⟨"r.csv", "text/csv"⟩, none, true, none⟩).1.analysisResult
      = none :=
  (c7_failure_terminal_for_attempt (some "key")
    ⟨some ⟨"r.csv", "text/csv"⟩, none, true, none⟩
    ⟨"r.csv", "text/csv"⟩ "quota" rfl (by decide)).1

/-- C8: a stored shape-A result always renders its two sections from the
two list fields: an empty list renders the placeholder paragraph, a
non-empty list renders the bullet list with exactly one item per element,
in order. -/
theorem c8_shapeA_render (res : ShapeA.MarketingAnalysis) :
    (res.insights = [] →
      ShapeA.renderInsights res
        = ShapeA.SectionRender.placeholder "No insights generated.") ∧
    (res.insights ≠ [] →
      ShapeA.renderInsights res
        = ShapeA.SectionRender.items res.insights) ∧
    (res.recommendations = [] →
      ShapeA.renderRecommendations res
        = ShapeA.SectionRender.placeholder "No recommendations generated.") ∧
    (res.recommendations ≠ [] →
      ShapeA.renderRecommendations res
        = ShapeA.SectionRender.items res.recommendations) := by
  refine ⟨?_, ?_, ?_, ?_⟩
  · intro h
    simp [ShapeA.renderInsights, h]
  · intro h
    simp [ShapeA.renderInsights, List.length_pos.mpr h]
  · intro h
    simp [ShapeA.renderRecommendations, h]
  · intro h
    simp [ShapeA.renderRecommendations, List.length_pos.mpr h]

/-- C8 witness: a result with empty insights and one recommendation
renders the insights placeholder and the one-item recommendations list. -/
theorem c8_witness :
    ShapeA.renderInsights ⟨[], ["Zwiększyć budżet"]⟩
      = ShapeA.SectionRender.placeholder "No insights generated." ∧
    ShapeA.renderRecommendations ⟨[], ["Zwiększyć budżet"]⟩
      = ShapeA.SectionRender.items ["Zwiększyć budżet"] :=
  ⟨(c8_shapeA_render ⟨[], ["Zwiększyć budżet"]⟩).1 rfl,
   (c8_shapeA_render ⟨[], ["Zwiększyć budżet"]⟩).2.2.2 (by simp)⟩

/-- C10: every run of `handleAnalyze` that passes both guards ends with
the loading flag lowered, whatever the attempt's outcome. -/
theorem c10_loading_reset {α : Type} (k : Option String)
    (o : AttemptOutcome α) (s : AppState α) (f : File)
    (hf : s.selectedFile = some f) (hk : keyConfigured k = true) :
    (handleAnalyze k o s).1.isLoading = false := by
  cases o <;> simp [handleAnalyze, hf, hk]

/-- C2: a payload wrapped in a triple-backtick code fence with an
optional word tag (such as `json`) and the identical unfenced payload are
unwrapped to the same string, so any parse of the unwrapped text yields
identical results for the fenced and the unfenced response. -/
theorem c2_fence_roundtrip {α : Type} (parse : String → α)
    (tag payload : String)
    (h1 : trimChars payload.data = payload.data)
    (h2 : fenceMark.isPrefixOf payload.data = false)
    (h3 : tag.data.all isWordChar = true) :
    parse (unwrapResponse (mkFenced tag payload))
      = parse (unwrapResponse payload) := by
  have e1 : "```".data = fenceMark := by decide
  have e2 : "\n".data = ['\n'] := by decide
  have e3 : "\n```".data = '\n' :: fenceMark := by decide
  have hdata : (mkFenced tag payload).data
      = fenceMark ++ tag.data ++ '\n' :: (payload.data ++ '\n' :: fenceMark) := by
    show ("```" ++ tag ++ "\n" ++ payload ++ "\n```").data = _
    rw [String.data_append, String.data_append, String.data_append,
      String.data_append, e1, e2, e3]
    simp [List.append_assoc]
  rw [unwrapResponse, unwrapResponse, hdata,
    unwrapChars_fenced tag.data payload.data h1 h3,
    unwrapChars_plain payload.data h1 h2]

/-- C2 witness: the fenced and unfenced forms of a concrete clean payload
unwrap to the same string. -/
theorem c2_witness :
    unwrapResponse (mkFenced "json" "[1, 2]") = unwrapResponse "[1, 2]" :=
  c2_fence_roundtrip (fun s => s) "json" "[1, 2]" (by decide) (by decide)
    (by decide)

/-- C3: a response object whose declared array field (`insights` or
`recommendations` in shape A, or one of the four `analysis` sub-arrays in
shape B) is present but not actually an array makes the validator return
the local error carrying the truncated raw-text preview, and an errored
attempt never stores a result. -/
theorem c3_nonarray_rejected (raw : String) (v : JsonValue)
    (fields af : List (String × JsonValue)) (hv : isArr v = false) :
    (getField fields "insights" = some v →
      validateShapeA raw (JsonValue.jobj fields)
        = Except.error (shapeErrHead ++ truncatePreview raw)) ∧
    (getField fields "recommendations" = some v →
      validateShapeA raw (JsonValue.jobj fields)
        = Except.error (shapeErrHead ++ truncatePreview raw)) ∧
    (∀ fn, (fn = "conclusions" ∨ fn = "suggestions" ∨ fn = "risks" ∨
        fn = "criticalErrors") →
      getField af fn = some v →
      getField fields "analysis" = some (JsonValue.jobj af) →
      validateShapeB raw (JsonValue.jobj fields)
        = Except.error (shapeErrHead ++ truncatePreview raw)) ∧
    (∀ (α : Type) (k : Option String) (m : String) (s : AppState α)
        (f : File), s.selectedFile = some f → keyConfigured k = true →
      (handleAnalyze k (AttemptOutcome.errMsg m) s).1.analysisResult
          = none ∧
      (handleAnalyze k (AttemptOutcome.errMsg m) s).1.error
          = some (analyzeFailHead ++ m)) := by
  refine ⟨?_, ?_, ?_, ?_⟩
  · intro hi
    have hnone : (getField fields "insights").bind asStrList = none := by
      rw [hi]
      simp [asStrList_nonarr hv]
    simp [validateShapeA, hnone]
  · intro hr
    have hnone : (getField fields "recommendations").bind asStrList
        = none := by
      rw [hr]
      simp [asStrList_nonarr hv]
    cases h1 : (getField fields "insights").bind asStrList <;>
      simp [validateShapeA, h1, hnone]
  · intro fn hfn hfnv hana
    have hd := validateDetails_err af fn v hv hfn hfnv
    cases hb : getField fields "isMarketingData" with
    | none => simp [validateShapeB, hb]
    | some w => cases w <;> simp [validateShapeB, hb, hana, hd]
  · intro α k m s f hf hk
    simp [handleAnalyze, hf, hk]

/-- C3 witness: a shape-A object whose `insights` field is a string fails
validation with the truncated-preview error. -/
theorem c3_witness :
    validateShapeA "zly format" (JsonValue.jobj
        [("insights", JsonValue.jstr "x")])
      = Except.error (shapeErrHead ++ truncatePreview "zly format") :=
  (c3_nonarray_rejected "zly format" (JsonValue.jstr "x")
    [("insights", JsonValue.jstr "x")] [] rfl).1 rfl

/-- C10 witness: the loading flag is lowered at a concrete successful
attempt started from a loading state. -/
theorem c10_witness :
    (handleAnalyze (some "key")
        (AttemptOutcome.ok (⟨false, none, some "ok"⟩ :
          ShapeB.MarketingAnalysis))
        ⟨some ⟨"r.csv", "text/csv"⟩, none, true, none⟩).1.isLoading
      = false :=
  c10_loading_reset (some "key") _
    ⟨some ⟨"r.csv", "text/csv"⟩, none, true, none⟩
    ⟨"r.csv", "text/csv"⟩ rfl (by decide)

end MrAnalyzer
